import Mathlib

/-!
Shallow embedding of the strategy-builder core:
`src/backtesting_framework.py` (BacktestEngine) and `src/optimizer.py`
(StrategyOptimizer, worker, parameter grid), plus the narrow slice of
`src/builder_framework.py` they consume (`get_component`).

Python floats are modelled as `ℚ` (exact arithmetic); pandas DataFrames
as `List Bar` with the signal columns the engine reads; Python dicts of
parameters as association lists.  Division by zero in `ℚ` yields `0`
where numpy would yield `inf`; no claim exercises those corners.
-/

/-- A parameter value as it appears in a parameter dict / grid:
numbers or strings (e.g. a `choice` option such as a direction name). -/
inductive Value where
  | num (q : ℚ)
  | str (s : String)
deriving DecidableEq, Repr

/-- A Python parameter dict, as an ordered association list. -/
abbrev Params := List (String × Value)

/-- One entry of `filter_configs`: `{'name': ..., 'params': {...}}`. -/
structure FilterConfig where
  name : String
  params : Params
deriving DecidableEq, Repr

/-- The `strategy_config` dict the optimizer worker passes to
`BacktestEngine.run` and that is echoed back in the result. -/
structure StrategyConfig where
  pattern : String
  parameters : Params
  filters : List FilterConfig
deriving DecidableEq, Repr

/-- One row of the bar DataFrame.  The engine reads `high`, `low`,
`close` and the boolean signal columns; `df.iloc[i].get('signal_long',
False)` reads an absent column as `false`, so the columns are modelled
as always-present booleans. -/
structure Bar where
  open_price : ℚ
  high : ℚ
  low : ℚ
  close : ℚ
  volume : ℚ
  signal_long : Bool := false
  signal_short : Bool := false
  filter_ok : Bool := true
deriving DecidableEq, Repr

/-- `BacktestConfig` dataclass. -/
structure BacktestConfig where
  initial_capital : ℚ := 100000
  commission_per_trade : ℚ := 3/2
  slippage_pips : ℚ := 1
  risk_per_trade_pct : ℚ := 1
  position_sizing : String := "fixed"
  fixed_qty : ℚ := 1
deriving DecidableEq, Repr

/-- One row of the trade ledger, exactly the dict appended in
`BacktestEngine.run` (lines 74-82). -/
structure Trade where
  entry_bar : ℕ
  exit_bar : ℕ
  direction : String
  entry_price : ℚ
  exit_price : ℚ
  pnl : ℚ
  exit_reason : String
deriving DecidableEq, Repr

/-- The metrics dict built by `_calculate_metrics`.  The key set is
fixed; `sharpe_ratio` is omitted from the model because its value
involves a square root (`std`, `sqrt(252)`), is irrational, and no
claim refers to it. -/
structure Metrics where
  total_trades : ℚ
  winning_trades : ℚ
  losing_trades : ℚ
  win_rate : ℚ
  total_pnl : ℚ
  avg_win : ℚ
  avg_loss : ℚ
  profit_factor : ℚ
  max_drawdown : ℚ
  final_equity : ℚ
  roi : ℚ
deriving DecidableEq, Repr

/-- `BacktestResult` dataclass. -/
structure BacktestResult where
  equity_curve : List ℚ
  trades : List Trade
  metrics : Metrics
  parameters : StrategyConfig
deriving DecidableEq, Repr

namespace BacktestEngine

/-- `_check_exit` (lines 115-128). -/
def check_exit (row : Bar) (position entry sl tp : ℚ) : Bool × String :=
  if position > 0 then
    if row.low ≤ sl then (true, "stop_loss")
    else if row.high ≥ tp ∧ tp > 0 then (true, "take_profit")
    else (false, "")
  else if position < 0 then
    if row.high ≥ sl then (true, "stop_loss")
    else if row.low ≤ tp ∧ tp > 0 then (true, "take_profit")
    else (false, "")
  else (false, "")

/-- `_calculate_position_size` (lines 152-161). -/
def calculate_position_size (config : BacktestConfig) (entry sl equity : ℚ) : ℚ :=
  if config.position_sizing = "fixed" then
    config.fixed_qty
  else
    let risk_distance := |entry - sl|
    let risk_money := equity * (config.risk_per_trade_pct / 100)
    let qty := risk_money / risk_distance
    max qty (1/100)

/-- `_enter_long` (lines 130-139); returns (qty, entry, sl, tp). -/
def enter_long (config : BacktestConfig) (row : Bar) (current_equity : ℚ) :
    ℚ × ℚ × ℚ × ℚ :=
  let entry_price := row.high + config.slippage_pips
  let sl := row.low - config.slippage_pips
  let risk := entry_price - sl
  let tp := entry_price + risk * (3/2)
  let qty := calculate_position_size config entry_price sl current_equity
  (qty, entry_price, sl, tp)

/-- `_enter_short` (lines 141-150); returns (-qty, entry, sl, tp). -/
def enter_short (config : BacktestConfig) (row : Bar) (current_equity : ℚ) :
    ℚ × ℚ × ℚ × ℚ :=
  let entry_price := row.low - config.slippage_pips
  let sl := row.high + config.slippage_pips
  let risk := sl - entry_price
  let tp := entry_price - risk * (3/2)
  let qty := calculate_position_size config entry_price sl current_equity
  (-qty, entry_price, sl, tp)

/-- `_calculate_pnl` (lines 163-167). -/
def calculate_pnl (entry exit_price qty commission : ℚ) : ℚ :=
  let gross_pnl := (exit_price - entry) * qty
  let net_pnl := gross_pnl - 2 * commission
  net_pnl

/-- The per-index state of the tracking arrays of `run`: the values of
`positions[j]`, `entry_prices[j]`, `stop_losses[j]`, `take_profits[j]`,
`equity[j]` at one index `j`. -/
structure EngineState where
  position : ℚ
  entry_price : ℚ
  stop_loss : ℚ
  take_profit : ℚ
  equity : ℚ
deriving DecidableEq, Repr

/-- One iteration of the main backtest loop (lines 56-102) at index
`i ≥ 1`: given the index-`i-1` state `s` and the row `df.iloc[i]`,
produce the index-`i` state and the trade logged at `i`, if any.

The arrays are pre-filled (`np.zeros`, `np.full(..., initial_capital)`),
so an array cell the iteration does not assign keeps its fill value:
positions/prices `0` and equity `initial_capital` — NOT the previous
bar's equity. -/
def stepBar (config : BacktestConfig) (i : ℕ) (s : EngineState) (row : Bar) :
    EngineState × Option Trade :=
  -- fill values of the tracking arrays at index i
  let filled : EngineState := ⟨0, 0, 0, 0, config.initial_capital⟩
  -- "Check for exits first" (lines 58-91)
  let afterExit : EngineState × Option Trade :=
    if s.position ≠ 0 then
      let ex := check_exit row s.position s.entry_price s.stop_loss s.take_profit
      if ex.1 then
        let exit_price := row.close
        let pnl := calculate_pnl s.entry_price exit_price s.position
          config.commission_per_trade
        ({ filled with equity := s.equity + pnl },
         some { entry_bar := i - 1
                exit_bar := i
                direction := if s.position > 0 then "long" else "short"
                entry_price := s.entry_price
                exit_price := exit_price
                pnl := pnl
                exit_reason := ex.2 })
      else
        (⟨s.position, s.entry_price, s.stop_loss, s.take_profit, s.equity⟩, none)
    else
      (filled, none)
  -- "Check for new entries (only if flat)" (lines 93-102);
  -- sizing and the assigned equity both use equity[i-1] = s.equity,
  -- overwriting the exit branch's equity[i] if an exit fired this bar
  let s1 := afterExit.1
  if s1.position = 0 ∧ row.signal_long then
    let e := enter_long config row s.equity
    ({ position := e.1, entry_price := e.2.1, stop_loss := e.2.2.1,
       take_profit := e.2.2.2, equity := s.equity }, afterExit.2)
  else if s1.position = 0 ∧ row.signal_short then
    let e := enter_short config row s.equity
    ({ position := e.1, entry_price := e.2.1, stop_loss := e.2.2.1,
       take_profit := e.2.2.2, equity := s.equity }, afterExit.2)
  else
    (s1, afterExit.2)

/-- Runs the loop over `df.iloc[i]` for `i = firstIdx, firstIdx+1, ...`,
returning the equity values at those indices and the trade ledger. -/
def runAux (config : BacktestConfig) : ℕ → EngineState → List Bar →
    List ℚ × List Trade
  | _, _, [] => ([], [])
  | i, s, row :: rest =>
    let step := stepBar config i s row
    let tail := runAux config (i + 1) step.1 rest
    (step.1.equity :: tail.1,
     match step.2 with
     | some t => t :: tail.2
     | none => tail.2)

/-- `_calculate_max_drawdown` helper: the element-wise drawdown series
`(equity - running_max) / running_max * 100`, where `running_max` is
the expanding maximum (`rm` is the maximum of all elements before the
current one). -/
def drawdownAux : ℚ → List ℚ → List ℚ
  | _, [] => []
  | rm, e :: rest =>
    let m := max rm e
    ((e - m) / m * 100) :: drawdownAux m rest

/-- The full drawdown series of an equity curve. -/
def drawdownList : List ℚ → List ℚ
  | [] => []
  | e :: rest => drawdownAux e (e :: rest)

/-- `pandas.Series.min()` on a nonempty list; `0` on the empty list
(pandas would give NaN — the engine never evaluates it on an empty
curve, since metrics are only computed when a trade exists). -/
def seriesMin : List ℚ → ℚ
  | [] => 0
  | x :: xs => xs.foldl min x

/-- `_calculate_max_drawdown` (lines 195-200). -/
def calculate_max_drawdown (equity : List ℚ) : ℚ :=
  seriesMin (drawdownList equity)

/-- `_empty_metrics` (lines 202-207). -/
def empty_metrics : Metrics :=
  ⟨0, 0, 0, 0, 0, 0, 0, 0, 0, 0, 0⟩

/-- `_calculate_metrics` (lines 169-193), minus `sharpe_ratio` (see
`Metrics`). -/
def calculate_metrics (equity : List ℚ) (trades : List Trade) : Metrics :=
  if trades = [] then empty_metrics
  else
    let winning_trades := trades.filter (fun t => t.pnl > 0)
    let losing_trades := trades.filter (fun t => t.pnl < 0)
    let winSum := (winning_trades.map Trade.pnl).sum
    let loseSum := (losing_trades.map Trade.pnl).sum
    let last := (equity.getLast?).getD 0
    let first := (equity.head?).getD 0
    { total_trades := trades.length
      winning_trades := winning_trades.length
      losing_trades := losing_trades.length
      win_rate := if trades.length > 0 then
          (winning_trades.length : ℚ) / (trades.length : ℚ) * 100 else 0
      total_pnl := (trades.map Trade.pnl).sum
      avg_win := if winning_trades.length > 0 then
          winSum / (winning_trades.length : ℚ) else 0
      avg_loss := if losing_trades.length > 0 then
          loseSum / (losing_trades.length : ℚ) else 0
      profit_factor := if losing_trades.length > 0 ∧ loseSum ≠ 0 then
          |winSum / loseSum| else 0
      max_drawdown := calculate_max_drawdown equity
      final_equity := last
      roi := (last - first) / first * 100 }

/-- `BacktestEngine.run` (lines 32-113).  The equity curve is the
length-`len(df)` array: index 0 keeps its fill value
`initial_capital` (the loop starts at `i = 1`), indices `≥ 1` come
from the loop. -/
def run (config : BacktestConfig) (df : List Bar)
    (strategy_config : StrategyConfig) : BacktestResult :=
  match df with
  | [] =>
    { equity_curve := []
      trades := []
      metrics := calculate_metrics [] []
      parameters := strategy_config }
  | _ :: rest =>
    let init : EngineState := ⟨0, 0, 0, 0, config.initial_capital⟩
    let outcome := runAux config 1 init rest
    let equity := config.initial_capital :: outcome.1
    { equity_curve := equity
      trades := outcome.2
      metrics := calculate_metrics equity outcome.2
      parameters := strategy_config }

end BacktestEngine

/-! ## Optimizer: `src/optimizer.py` and the registry lookups it uses -/

/-- `OptimizationResult` dataclass. -/
structure OptimizationResult where
  parameters : Params
  metrics : Metrics
  rank_score : ℚ := 0
deriving DecidableEq, Repr

/-- A signal/filter collaborator: `apply(bars, params) -> bars`
(`pattern_func(df, **params)` / `filter_func(df, **params)`). -/
abbrev PatternFunc := List Bar → Params → List Bar

/-- The slice of `COMPONENT_REGISTRY` the optimizer consults:
`get_component('entry_pattern', name)` and `get_component('filter',
name)` (builder_framework.py lines 816-830), each returning the
component or nothing.  The registry is external state populated by
decorators; it enters the model as an explicit value. -/
structure Registry where
  entry_patterns : List (String × PatternFunc)
  filters : List (String × PatternFunc)

/-- `get_component(category, name)`: a dict lookup returning `none`
when the name is not registered. -/
def get_component (components : List (String × PatternFunc)) (name : String) :
    Option PatternFunc :=
  List.lookup name components

/-- One job tuple `(df, pattern_name, params, filter_configs, config)`
(optimizer.py line 73). -/
structure Job where
  df : List Bar
  pattern_name : String
  params : Params
  filter_configs : List FilterConfig
  config : BacktestConfig

/-- The body of the `try` block of `_run_single_backtest_worker`
(lines 177-218).  The one raise reachable in the typed model is the
unknown-pattern `ValueError` (line 181); in the typed model the bar
fields and columns always exist, so `'filter_ok' in df.columns` and
the signal-column checks (lines 197-202) are always true. -/
def run_single_backtest_worker_try (reg : Registry) (args : Job) :
    Except String OptimizationResult :=
  match get_component reg.entry_patterns args.pattern_name with
  | none => .error "pattern not found"  -- raise ValueError (line 181)
  | some pattern_func =>
    let df_signals := pattern_func args.df args.params
    let df_signals := args.filter_configs.foldl (fun d filter_config =>
      match get_component reg.filters filter_config.name with
      | some filter_func => filter_func d filter_config.params
      | none => d) df_signals
    let df_signals := if args.filter_configs ≠ [] then
        df_signals.map (fun b =>
          { b with signal_long := b.signal_long && b.filter_ok
                   signal_short := b.signal_short && b.filter_ok })
      else df_signals
    let result := BacktestEngine.run args.config df_signals
      ⟨args.pattern_name, args.params, args.filter_configs⟩
    .ok { parameters := args.params, metrics := result.metrics, rank_score := 0 }

/-- `_run_single_backtest_worker` (lines 163-223): the `except
Exception` clause turns any raised error into `None`. -/
def run_single_backtest_worker (reg : Registry) (args : Job) :
    Option OptimizationResult :=
  match run_single_backtest_worker_try reg args with
  | .ok r => some r
  | .error _ => none

/-- `itertools.product(*param_values)`: leftmost list varies slowest;
the product of no lists is the single empty tuple. -/
def cartesian_product : List (List Value) → List (List Value)
  | [] => [[]]
  | vs :: rest => vs.flatMap (fun v => (cartesian_product rest).map (v :: ·))

/-- `StrategyOptimizer.optimize` lines 54-73: the parameter
combinations and the job list.  Empty `parameter_ranges` yields the
single empty parameter set. -/
def optimize_jobs (config : BacktestConfig) (df : List Bar)
    (pattern_name : String) (parameter_ranges : List (String × List Value))
    (filter_configs : List FilterConfig) : List Job :=
  let combinations : List Params :=
    if parameter_ranges = [] then [[]]
    else
      let param_names := parameter_ranges.map Prod.fst
      let param_values := parameter_ranges.map Prod.snd
      (cartesian_product param_values).map (fun combo => param_names.zip combo)
  combinations.map (fun params =>
    { df := df, pattern_name := pattern_name, params := params
      filter_configs := filter_configs, config := config })

/-- The composite score assigned by `_rank_results` (lines 112-127). -/
def rank_score_of (m : Metrics) : ℚ :=
  let roi_component := min (max (m.roi / 100) (-1)) 2
  let pf_component := min (m.profit_factor / 3) 1
  let dd_component := max (1 - |m.max_drawdown| / 100) 0
  roi_component * (3/10) + pf_component * (3/10) + dd_component * (4/10)

/-- `_rank_results` (lines 101-131): score every result, then
`results.sort(key=..., reverse=True)`.  CPython's sort is stable and
`reverse=True` keeps tied elements in their original order, which is
exactly `List.mergeSort` under the reflexive-descending comparison. -/
def rank_results (results : List OptimizationResult) : List OptimizationResult :=
  let scored := results.map (fun r => { r with rank_score := rank_score_of r.metrics })
  scored.mergeSort (fun a b => decide (b.rank_score ≤ a.rank_score))

/-- `StrategyOptimizer.optimize` (lines 39-99), serial path
(`n_jobs == 1`; the parallel path maps the same pure worker over the
same job list). -/
def optimize (reg : Registry) (config : BacktestConfig) (df : List Bar)
    (pattern_name : String) (parameter_ranges : List (String × List Value))
    (filter_configs : List FilterConfig) : List OptimizationResult :=
  let jobs := optimize_jobs config df pattern_name parameter_ranges filter_configs
  let results := jobs.map (run_single_backtest_worker reg)
  let results := (results.filterMap id).filter
    (fun r => r.metrics.total_trades > 0)
  if results = [] then []
  else rank_results results

/-! ## Parameter grid generation: `generate_parameter_grid` -/

/-- Python `int()` applied to a numeric value: truncation toward 0. -/
def pythonInt (x : ℚ) : ℤ :=
  if x < 0 then ⌈x⌉ else ⌊x⌋

/-- Python `round()` to an integer: round-half-to-even. -/
def pythonRound (y : ℚ) : ℤ :=
  let f := ⌊y⌋
  let frac := y - f
  if frac < 1/2 then f
  else if 1/2 < frac then f + 1
  else if f % 2 = 0 then f else f + 1

/-- Python `round(x, 2)`. -/
def round2 (x : ℚ) : ℚ :=
  (pythonRound (x * 100) : ℚ) / 100

/-- `range(start, stop, step)` for a positive `step`, via fuel (each
iteration advances by `step ≥ 1`, so `(stop - start) + 1` iterations
always suffice). -/
def pyIntRangeAux : ℕ → ℤ → ℤ → ℤ → List ℤ
  | 0, _, _, _ => []
  | fuel + 1, cur, stop, step =>
    if cur < stop then cur :: pyIntRangeAux fuel (cur + step) stop step else []

/-- `list(range(start, stop, step))`, `step > 0`. -/
def pyIntRange (start stop step : ℤ) : List ℤ :=
  pyIntRangeAux ((stop - start).toNat + 1) start stop step

/-- The `float` branch of `generate_parameter_grid` (lines 251-256):
`while current <= max_val: values.append(round(current, 2)); current
+= step`, via fuel (sufficient whenever `step > 0`). -/
def pyFloatRangeAux : ℕ → ℚ → ℚ → ℚ → List ℚ
  | 0, _, _, _ => []
  | fuel + 1, current, max_val, step =>
    if current ≤ max_val then
      round2 current :: pyFloatRangeAux fuel (current + step) max_val step
    else []

/-- The generated float value list for a `{min, max, step}` spec. -/
def pyFloatRange (min_val max_val step : ℚ) : List ℚ :=
  pyFloatRangeAux (⌈(max_val - min_val) / step⌉.toNat + 1) min_val max_val step

/-- One entry of the `param_spec` dict: every key is optional and read
with `spec.get(key, default)`. -/
structure ParamSpec where
  min? : Option ℚ := none
  max? : Option ℚ := none
  step? : Option ℚ := none
  type? : Option String := none
  options? : Option (List Value) := none

/-- `generate_parameter_grid` (lines 226-260).  A spec whose type is
none of int/float/choice contributes no entry.  Integer values are
carried as `ℚ` numbers inside `Value.num`. -/
def generate_parameter_grid (param_spec : List (String × ParamSpec)) :
    List (String × List Value) :=
  param_spec.filterMap (fun p =>
    let spec := p.2
    let min_val := spec.min?.getD 0
    let max_val := spec.max?.getD 100
    let step := spec.step?.getD 1
    let param_type := spec.type?.getD "int"
    if param_type = "int" then
      some (p.1, (pyIntRange (pythonInt min_val) (pythonInt max_val + 1)
        (pythonInt step)).map (fun v => Value.num (v : ℚ)))
    else if param_type = "float" then
      some (p.1, (pyFloatRange min_val max_val step).map Value.num)
    else if param_type = "choice" then
      some (p.1, spec.options?.getD [])
    else none)

/-! ## Concrete inputs used by witnesses and counterexamples -/

/-- The default `BacktestConfig()` (fixed sizing, quantity 1). -/
def demoConfig : BacktestConfig := {}

/-- A `BacktestConfig` in the risk-based sizing branch
(`position_sizing` other than `'fixed'`). -/
def riskConfig : BacktestConfig := { position_sizing := "risk_pct" }

/-- A minimal `strategy_config` dict. -/
def demoStrategy : StrategyConfig := ⟨"demo", [], []⟩

/-- Four bars: idle, long entry signal, stop-loss bar, idle bar.
At bar 1 the engine enters long (entry 111, stop 99, target 129);
bar 2's low (90) hits the stop, closing at 95 for a pnl of
`(95 - 111) * 1 - 2 * 1.5 = -19`; bar 3 is flat with no signal. -/
def demoBars : List Bar :=
  [ { open_price := 100, high := 101, low := 99, close := 100, volume := 0 },
    { open_price := 100, high := 110, low := 100, close := 105, volume := 0,
      signal_long := true },
    { open_price := 95, high := 96, low := 90, close := 95, volume := 0 },
    { open_price := 100, high := 101, low := 99, close := 100, volume := 0 } ]


/-- A registry with nothing registered. -/
def emptyRegistry : Registry := ⟨[], []⟩

/-- An `{min, max, step, type: int}` spec. -/
def intSpecOf (a b s : ℤ) : ParamSpec :=
  { min? := some (a : ℚ), max? := some (b : ℚ), step? := some (s : ℚ),
    type? := some "int" }

/-- An `{min, max, step, type: float}` spec. -/
def floatSpecOf (mn mx st : ℚ) : ParamSpec :=
  { min? := some mn, max? := some mx, step? := some st,
    type? := some "float" }

/-- An `{type: choice, options}` spec. -/
def choiceSpecOf (opts : List Value) : ParamSpec :=
  { type? := some "choice", options? := some opts }

/-- The descending comparison used by `rank_results`. -/
def rankLE (a b : OptimizationResult) : Bool :=
  decide (b.rank_score ≤ a.rank_score)

/-- Three bars engineering a same-bar stop/target tie: bar 1 signals a
long entry (entry 111, stop 99, target 129); bar 2 has `low = 95 ≤ 99`
and `high = 130 ≥ 129` — both exit conditions hold at once. -/
def tieBars : List Bar :=
  [ { open_price := 100, high := 101, low := 99, close := 100, volume := 0 },
    { open_price := 100, high := 110, low := 100, close := 105, volume := 0,
      signal_long := true },
    { open_price := 100, high := 130, low := 95, close := 100, volume := 0 } ]

/-! ## Claim theorems -/

/-- Claim C4: for an open long position, when on the same bar both the
stop condition (`low ≤ stop_loss`) and the target condition
(`high ≥ take_profit` with `take_profit > 0`) hold, `_check_exit`
returns a stop-loss exit: the stop-loss check is evaluated first and
wins the tie. -/
theorem stop_loss_wins_tie (row : Bar) (position entry sl tp : ℚ)
    (hpos : 0 < position) (hsl : row.low ≤ sl) (htp : tp ≤ row.high)
    (htp0 : 0 < tp) :
    BacktestEngine.check_exit row position entry sl tp = (true, "stop_loss") ∧
    (BacktestEngine.run demoConfig tieBars demoStrategy).trades.map
      Trade.exit_reason = ["stop_loss"] := by
  constructor
  · simp [BacktestEngine.check_exit, hpos, hsl]
  · norm_num [BacktestEngine.run, BacktestEngine.runAux, BacktestEngine.stepBar,
      BacktestEngine.check_exit, BacktestEngine.enter_long,
      BacktestEngine.enter_short, BacktestEngine.calculate_position_size,
      BacktestEngine.calculate_pnl, demoConfig, tieBars, demoStrategy]

/-- Witness for `stop_loss_wins_tie`: a concrete long position whose
bar touches both levels exits by stop-loss. -/
theorem stop_loss_wins_tie_witness :
    BacktestEngine.check_exit
      { open_price := 100, high := 130, low := 95, close := 100, volume := 0 }
      1 111 99 129 = (true, "stop_loss") :=
  (stop_loss_wins_tie _ 1 111 99 129 (by norm_num) (by norm_num) (by norm_num)
    (by norm_num)).1

/-- Claim C5: `_calculate_position_size` returns `fixed_qty`
unconditionally in fixed mode; in any other mode it returns
`max(equity * risk_per_trade_pct/100 / |entry - stop|, 0.01)`; and at
equity 100000, risk 1%, entry 110, stop 100 the quantity is exactly
100. -/
theorem position_sizing_formula (config : BacktestConfig) (entry sl equity : ℚ) :
    (config.position_sizing = "fixed" →
      BacktestEngine.calculate_position_size config entry sl equity =
        config.fixed_qty) ∧
    (config.position_sizing ≠ "fixed" →
      BacktestEngine.calculate_position_size config entry sl equity =
        max (equity * (config.risk_per_trade_pct / 100) / |entry - sl|)
          (1/100)) ∧
    BacktestEngine.calculate_position_size riskConfig 110 100 100000 = 100 := by
  refine ⟨fun h => by simp [BacktestEngine.calculate_position_size, h],
    fun h => by simp [BacktestEngine.calculate_position_size, h],
    by norm_num [BacktestEngine.calculate_position_size, riskConfig]; decide⟩

/-- Witness for `position_sizing_formula`: the default (fixed) config
returns its `fixed_qty`. -/
theorem position_sizing_formula_witness :
    BacktestEngine.calculate_position_size demoConfig 110 100 100000 =
      demoConfig.fixed_qty :=
  (position_sizing_formula demoConfig 110 100 100000).1 rfl

/-- Claim C9: `optimize` given empty parameter ranges still builds
exactly one backtest job, carrying the single empty parameter set. -/
theorem empty_ranges_single_job (config : BacktestConfig) (df : List Bar)
    (pattern_name : String) (filter_configs : List FilterConfig) :
    optimize_jobs config df pattern_name [] filter_configs =
      [{ df := df, pattern_name := pattern_name, params := [],
         filter_configs := filter_configs, config := config }] ∧
    (optimize_jobs config df pattern_name [] filter_configs).length = 1 := by
  constructor <;> simp [optimize_jobs]

/-- Claim C2, counterexample: `run` on the empty bar sequence returns
a `BacktestResult` normally (empty curve, empty ledger, zero-filled
metrics) — it raises nothing, refuting the claimed
`InvalidInputError`. -/
theorem run_empty_returns_result :
    BacktestEngine.run demoConfig [] demoStrategy =
      { equity_curve := [], trades := [],
        metrics := BacktestEngine.empty_metrics,
        parameters := demoStrategy } := by
  decide

/-- Claim C2, amended: `run` performs no input validation; on an empty
bar sequence it returns a `BacktestResult` with empty equity curve,
empty trade ledger and zero-filled metrics, for every config. -/
theorem run_empty_no_validation (config : BacktestConfig) (sc : StrategyConfig) :
    BacktestEngine.run config [] sc =
      { equity_curve := [], trades := [],
        metrics := BacktestEngine.empty_metrics,
        parameters := sc } := by
  simp [BacktestEngine.run, BacktestEngine.calculate_metrics]

/-- Claim C1 (code bug evidence): on `demoBars` — entry at bar 1, a
-19 stop-loss exit at bar 2, flat no-signal bar 3 — the equity curve
is `[100000, 100000, 99981, 100000]`: equity changes between bars 2
and 3 (snapping back to `initial_capital`) although the only trade
closes at bar 2, because the flat/no-signal branch of the loop never
assigns `equity[i]` and the array keeps its fill value. -/
theorem equity_resets_on_idle_bar :
    (BacktestEngine.run demoConfig demoBars demoStrategy).equity_curve =
      [100000, 100000, 99981, 100000] ∧
    (BacktestEngine.run demoConfig demoBars demoStrategy).trades.map
      Trade.exit_bar = [2] ∧
    (BacktestEngine.run demoConfig demoBars demoStrategy).equity_curve.getD 3 0 ≠
      (BacktestEngine.run demoConfig demoBars demoStrategy).equity_curve.getD 2 0 := by
  have h : BacktestEngine.run demoConfig demoBars demoStrategy =
      { equity_curve := [100000, 100000, 99981, 100000]
        trades := [{ entry_bar := 1, exit_bar := 2, direction := "long",
                     entry_price := 111, exit_price := 95, pnl := -19,
                     exit_reason := "stop_loss" }]
        metrics := { total_trades := 1, winning_trades := 0, losing_trades := 1,
                     win_rate := 0, total_pnl := -19, avg_win := 0,
                     avg_loss := -19, profit_factor := 0,
                     max_drawdown := -19/1000, final_equity := 100000, roi := 0 }
        parameters := demoStrategy } := by
    norm_num [BacktestEngine.run, BacktestEngine.runAux, BacktestEngine.stepBar,
      BacktestEngine.check_exit, BacktestEngine.enter_long,
      BacktestEngine.enter_short, BacktestEngine.calculate_position_size,
      BacktestEngine.calculate_pnl, BacktestEngine.calculate_metrics,
      BacktestEngine.calculate_max_drawdown, BacktestEngine.drawdownList,
      BacktestEngine.drawdownAux, BacktestEngine.seriesMin,
      demoConfig, demoBars, demoStrategy]
  rw [h]
  norm_num

/-- Any trade logged by one loop iteration at index `i` carries
`entry_bar = i - 1` and `exit_bar = i` (run lines 74-82). -/
lemma stepBar_trade_indices (config : BacktestConfig) (i : ℕ)
    (s : BacktestEngine.EngineState) (row : Bar) (t : Trade)
    (h : (BacktestEngine.stepBar config i s row).2 = some t) :
    t.entry_bar = i - 1 ∧ t.exit_bar = i := by
  simp only [BacktestEngine.stepBar] at h
  split_ifs at h <;> cases h <;> exact ⟨rfl, rfl⟩

/-- Every trade in the ledger produced by the loop starting at index
`i ≥ 1` has `exit_bar = entry_bar + 1`. -/
lemma runAux_trade_indices (config : BacktestConfig) :
    ∀ (rest : List Bar) (i : ℕ) (s : BacktestEngine.EngineState), 1 ≤ i →
      ∀ t ∈ (BacktestEngine.runAux config i s rest).2,
        t.exit_bar = t.entry_bar + 1 := by
  intro rest
  induction rest with
  | nil => intro i s _ t ht; simp [BacktestEngine.runAux] at ht
  | cons row rest ih =>
    intro i s hi t ht
    simp only [BacktestEngine.runAux] at ht
    revert ht
    cases hstep : (BacktestEngine.stepBar config i s row).2 with
    | none =>
      intro ht
      exact ih (i + 1) _ (by omega) t ht
    | some t0 =>
      intro ht
      rcases List.mem_cons.mp ht with rfl | hmem
      · obtain ⟨he, hx⟩ := stepBar_trade_indices config i s row t hstep
        omega
      · exact ih (i + 1) _ (by omega) t hmem

/-- Claim C10: every recorded trade has
`exit_bar_index = entry_bar_index + 1` — the engine always logs the
bar before the exit bar as the entry bar, whatever bar the position
was actually opened on. -/
theorem trade_exit_is_entry_succ (config : BacktestConfig) (df : List Bar)
    (sc : StrategyConfig) :
    ∀ t ∈ (BacktestEngine.run config df sc).trades,
      t.exit_bar = t.entry_bar + 1 := by
  intro t ht
  cases df with
  | nil => simp [BacktestEngine.run] at ht
  | cons b rest =>
    simp only [BacktestEngine.run] at ht
    exact runAux_trade_indices config rest 1 _ le_rfl t ht

/-- Witness for `trade_exit_is_entry_succ`: the concrete trade logged
on `demoBars` (entered at bar 1, held into bar 2) satisfies it. -/
theorem trade_exit_is_entry_succ_witness :
    (Trade.mk 1 2 "long" 111 95 (-19) "stop_loss").exit_bar =
      (Trade.mk 1 2 "long" 111 95 (-19) "stop_loss").entry_bar + 1 := by
  refine trade_exit_is_entry_succ demoConfig demoBars demoStrategy _ ?_
  norm_num [BacktestEngine.run, BacktestEngine.runAux, BacktestEngine.stepBar,
    BacktestEngine.check_exit, BacktestEngine.enter_long,
    BacktestEngine.enter_short, BacktestEngine.calculate_position_size,
    BacktestEngine.calculate_pnl, demoConfig, demoBars, demoStrategy]


/-- Claim C3, counterexample: with an unregistered pattern name the
worker body raises (models the `ValueError` of line 181), yet
`optimize` returns normally with the empty list — the error is
recovered inside the worker, not surfaced to the caller. -/
theorem unknown_pattern_swallowed :
    run_single_backtest_worker_try emptyRegistry
        { df := demoBars, pattern_name := "nope", params := [],
          filter_configs := [], config := demoConfig } =
      Except.error "pattern not found" ∧
    optimize emptyRegistry demoConfig demoBars "nope" [] [] = [] := by
  exact ⟨rfl, rfl⟩

/-- Claim C3, amended: whenever the pattern name is not registered,
every job's worker catches the raised error and yields `None`, and
`optimize` recovers, returning the empty list instead of surfacing any
error. -/
theorem unknown_pattern_never_surfaced (reg : Registry)
    (config : BacktestConfig) (df : List Bar) (pattern_name : String)
    (parameter_ranges : List (String × List Value))
    (filter_configs : List FilterConfig)
    (h : get_component reg.entry_patterns pattern_name = none) :
    optimize reg config df pattern_name parameter_ranges filter_configs = [] := by
  have hw : ∀ j ∈ optimize_jobs config df pattern_name parameter_ranges
      filter_configs, run_single_backtest_worker reg j = none := by
    intro j hj
    simp only [optimize_jobs, List.mem_map] at hj
    obtain ⟨params, -, rfl⟩ := hj
    simp [run_single_backtest_worker, run_single_backtest_worker_try, h]
  simp only [optimize]
  have hnil : (List.map (run_single_backtest_worker reg)
      (optimize_jobs config df pattern_name parameter_ranges
        filter_configs)).filterMap id = [] := by
    rw [List.filterMap_eq_nil_iff]
    intro o ho
    rcases List.mem_map.mp ho with ⟨j, hj, rfl⟩
    exact hw j hj
  simp [hnil]

/-- Witness for `unknown_pattern_never_surfaced`: concrete empty
registry, concrete unknown name. -/
theorem unknown_pattern_never_surfaced_witness :
    optimize emptyRegistry demoConfig demoBars "ghost" [] [] = [] :=
  unknown_pattern_never_surfaced emptyRegistry demoConfig demoBars "ghost" [] []
    rfl

/-- `seriesMin` is a lower bound of its (nonempty) list; stated on the
underlying fold. -/
lemma foldl_min_le (xs : List ℚ) : ∀ (acc : ℚ),
    xs.foldl min acc ≤ acc ∧ ∀ a ∈ xs, xs.foldl min acc ≤ a := by
  induction xs with
  | nil => intro acc; exact ⟨le_rfl, by simp⟩
  | cons y ys ih =>
    intro acc
    have h := ih (min acc y)
    refine ⟨h.1.trans (min_le_left _ _), ?_⟩
    intro a ha
    rcases List.mem_cons.mp ha with rfl | hmem
    · exact h.1.trans (min_le_right _ _)
    · exact h.2 a hmem

/-- Every drawdown value is `≤ 0` once the running maximum is
positive. -/
lemma drawdownAux_nonpos (l : List ℚ) : ∀ (rm : ℚ), 0 < rm →
    ∀ x ∈ BacktestEngine.drawdownAux rm l, x ≤ 0 := by
  induction l with
  | nil => intro rm _ x hx; simp [BacktestEngine.drawdownAux] at hx
  | cons e rest ih =>
    intro rm hrm x hx
    have hm : 0 < max rm e := lt_of_lt_of_le hrm (le_max_left _ _)
    simp only [BacktestEngine.drawdownAux, List.mem_cons] at hx
    rcases hx with rfl | hmem
    · have he : e - max rm e ≤ 0 := by
        have := le_max_right rm e; linarith
      have hdiv : (e - max rm e) / max rm e ≤ 0 :=
        div_nonpos_iff.mpr (Or.inr ⟨he, le_of_lt hm⟩)
      nlinarith
    · exact ih (max rm e) hm x hmem

/-- If every drawdown value is `≥ 0` then the tail never falls below
the running maximum: all elements dominate `rm` and the list is
non-decreasing. -/
lemma drawdownAux_zero (l : List ℚ) : ∀ (rm : ℚ), 0 < rm →
    (∀ x ∈ BacktestEngine.drawdownAux rm l, 0 ≤ x) →
    (∀ e ∈ l, rm ≤ e) ∧ l.Pairwise (· ≤ ·) := by
  induction l with
  | nil => intro rm _ _; simp
  | cons e rest ih =>
    intro rm hrm hall
    have hm : 0 < max rm e := lt_of_lt_of_le hrm (le_max_left _ _)
    have hd : 0 ≤ (e - max rm e) / max rm e * 100 := by
      refine hall _ ?_
      simp [BacktestEngine.drawdownAux]
    have he : e = max rm e := by
      rcases lt_or_eq_of_le (le_max_right rm e) with hlt | heq
      · exfalso
        have : (e - max rm e) / max rm e < 0 :=
          div_neg_of_neg_of_pos (by linarith) hm
        nlinarith
      · exact heq
    have hrme : rm ≤ e := by
      rw [he]; exact le_max_left _ _
    have htail := ih (max rm e) hm (fun x hx => hall x (by
      simp only [BacktestEngine.drawdownAux, List.mem_cons]
      exact Or.inr hx))
    have hdom : ∀ a ∈ rest, e ≤ a := by
      intro a ha
      rw [he]
      exact htail.1 a ha
    refine ⟨?_, ?_⟩
    · intro a ha
      rcases List.mem_cons.mp ha with rfl | hmem
      · exact hrme
      · exact hrme.trans (hdom a hmem)
    · exact List.pairwise_cons.mpr ⟨hdom, htail.2⟩

/-- `seriesMin` is a lower bound of a nonempty list. -/
lemma seriesMin_le_of_mem (y : ℚ) (ys : List ℚ) :
    ∀ a ∈ y :: ys, BacktestEngine.seriesMin (y :: ys) ≤ a := by
  intro a ha
  rcases List.mem_cons.mp ha with rfl | hmem
  · exact (foldl_min_le ys a).1
  · exact (foldl_min_le ys y).2 a hmem

/-- `_calculate_max_drawdown` on a curve with positive head: `≤ 0`,
and zero only when the curve never falls below its running maximum
(is non-decreasing). -/
lemma calculate_max_drawdown_head_pos (e : ℚ) (rest : List ℚ) (he : 0 < e) :
    BacktestEngine.calculate_max_drawdown (e :: rest) ≤ 0 ∧
    (BacktestEngine.calculate_max_drawdown (e :: rest) = 0 →
      (e :: rest).Pairwise (· ≤ ·)) := by
  have hnonpos : ∀ x ∈ BacktestEngine.drawdownList (e :: rest), x ≤ 0 :=
    drawdownAux_nonpos (e :: rest) e he
  -- the drawdown series starts with the value at the head bar
  have hshape : BacktestEngine.drawdownList (e :: rest) =
      (e - max e e) / max e e * 100 ::
        BacktestEngine.drawdownAux (max e e) rest := rfl
  have hminle : ∀ a ∈ BacktestEngine.drawdownList (e :: rest),
      BacktestEngine.calculate_max_drawdown (e :: rest) ≤ a := by
    intro a ha
    rw [BacktestEngine.calculate_max_drawdown, hshape]
    rw [hshape] at ha
    exact seriesMin_le_of_mem _ _ a ha
  have hmem0 : (e - max e e) / max e e * 100 ∈
      BacktestEngine.drawdownList (e :: rest) := by
    rw [hshape]
    exact List.mem_cons_self _ _
  constructor
  · exact (hminle _ hmem0).trans (hnonpos _ hmem0)
  · intro hzero
    have hlb : ∀ x ∈ BacktestEngine.drawdownAux e (e :: rest), 0 ≤ x := by
      intro x hx
      have hle := hminle x hx
      rw [hzero] at hle
      exact hle
    exact (drawdownAux_zero (e :: rest) e he hlb).2

/-- Claim C8: for a run on a nonempty bar sequence with positive
initial capital, the maximum drawdown of the produced equity curve is
`≤ 0`, and it is `0` only if the curve never falls below its running
maximum (equivalently, is non-decreasing). -/
theorem max_drawdown_nonpositive (config : BacktestConfig) (df : List Bar)
    (sc : StrategyConfig) (hdf : df ≠ [])
    (hcap : 0 < config.initial_capital) :
    BacktestEngine.calculate_max_drawdown
      ((BacktestEngine.run config df sc).equity_curve) ≤ 0 ∧
    (BacktestEngine.calculate_max_drawdown
        ((BacktestEngine.run config df sc).equity_curve) = 0 →
      ((BacktestEngine.run config df sc).equity_curve).Pairwise (· ≤ ·)) := by
  cases df with
  | nil => exact absurd rfl hdf
  | cons b rest =>
    have hcurve : (BacktestEngine.run config (b :: rest) sc).equity_curve =
        config.initial_capital ::
          (BacktestEngine.runAux config 1 ⟨0, 0, 0, 0, config.initial_capital⟩
            rest).1 := rfl
    rw [hcurve]
    exact calculate_max_drawdown_head_pos _ _ hcap

/-- Witness for `max_drawdown_nonpositive`: the demo run's drawdown is
nonpositive. -/
theorem max_drawdown_nonpositive_witness :
    BacktestEngine.calculate_max_drawdown
      ((BacktestEngine.run demoConfig demoBars demoStrategy).equity_curve) ≤ 0 :=
  (max_drawdown_nonpositive demoConfig demoBars demoStrategy
    (by simp [demoBars]) (by norm_num [demoConfig])).1

/-- Membership in the fuelled integer range: exactly the arithmetic
progression values below `stop` reachable within the fuel. -/
lemma mem_pyIntRangeAux : ∀ (fuel : ℕ) (cur stop step : ℤ), 1 ≤ step →
    ∀ v : ℤ, v ∈ pyIntRangeAux fuel cur stop step ↔
      ∃ k : ℕ, k < fuel ∧ v = cur + k * step ∧ cur + k * step < stop := by
  intro fuel
  induction fuel with
  | zero => intro cur stop step _ v; simp [pyIntRangeAux]
  | succ n ih =>
    intro cur stop step hs v
    simp only [pyIntRangeAux]
    by_cases h : cur < stop
    · rw [if_pos h]
      simp only [List.mem_cons]
      rw [ih (cur + step) stop step hs v]
      constructor
      · rintro (rfl | ⟨k, hk, hv, hlt⟩)
        · exact ⟨0, Nat.succ_pos n, by simp, by simpa⟩
        · refine ⟨k + 1, by omega, ?_, ?_⟩
          · rw [hv]; push_cast; ring
          · have heq : cur + ((k : ℤ) + 1) * step = cur + step + k * step := by
              ring
            push_cast
            rw [heq]
            exact hlt
      · rintro ⟨k, hk, hv, hlt⟩
        cases k with
        | zero => left; simpa using hv
        | succ m =>
          right
          refine ⟨m, by omega, ?_, ?_⟩
          · rw [hv]; push_cast; ring
          · have heq : cur + step + (m : ℤ) * step = cur + ((m : ℤ) + 1) * step := by
              ring
            rw [heq]
            push_cast at hlt
            linarith
    · rw [if_neg h]
      simp only [List.not_mem_nil, false_iff]
      rintro ⟨k, _, _, hlt⟩
      have hk0 : (0 : ℤ) ≤ (k : ℤ) * step :=
        mul_nonneg (Int.natCast_nonneg k) (by omega)
      omega

/-- `range(start, stop, step)` with `step ≥ 1` yields exactly the
progression values `start + k*step < stop` (the fuel is always
sufficient). -/
lemma mem_pyIntRange (start stop step : ℤ) (hs : 1 ≤ step) (v : ℤ) :
    v ∈ pyIntRange start stop step ↔
      ∃ k : ℕ, v = start + k * step ∧ start + k * step < stop := by
  rw [pyIntRange, mem_pyIntRangeAux _ _ _ _ hs]
  constructor
  · rintro ⟨k, _, hv, hlt⟩
    exact ⟨k, hv, hlt⟩
  · rintro ⟨k, hv, hlt⟩
    refine ⟨k, ?_, hv, hlt⟩
    have hk1 : (k : ℤ) ≤ (k : ℤ) * step :=
      le_mul_of_one_le_right (Int.natCast_nonneg k) hs
    omega

/-- Membership in the fuelled float range: the rounded progression
values not exceeding `max_val`, within the fuel. -/
lemma mem_pyFloatRangeAux : ∀ (fuel : ℕ) (cur max_val step : ℚ), 0 < step →
    ∀ v : ℚ, v ∈ pyFloatRangeAux fuel cur max_val step ↔
      ∃ k : ℕ, k < fuel ∧ v = round2 (cur + k * step) ∧
        cur + k * step ≤ max_val := by
  intro fuel
  induction fuel with
  | zero => intro cur max_val step _ v; simp [pyFloatRangeAux]
  | succ n ih =>
    intro cur max_val step hs v
    simp only [pyFloatRangeAux]
    by_cases h : cur ≤ max_val
    · rw [if_pos h]
      simp only [List.mem_cons]
      rw [ih (cur + step) max_val step hs v]
      constructor
      · rintro (rfl | ⟨k, hk, hv, hle⟩)
        · exact ⟨0, Nat.succ_pos n, by simp, by simpa⟩
        · refine ⟨k + 1, by omega, ?_, ?_⟩
          · rw [hv]
            congr 1
            push_cast
            ring
          · have heq : cur + ((k : ℚ) + 1) * step = cur + step + k * step := by
              ring
            push_cast
            rw [heq]
            exact hle
      · rintro ⟨k, hk, hv, hle⟩
        cases k with
        | zero => left; simpa using hv
        | succ m =>
          right
          refine ⟨m, by omega, ?_, ?_⟩
          · rw [hv]
            congr 1
            push_cast
            ring
          · have heq : cur + step + (m : ℚ) * step = cur + ((m : ℚ) + 1) * step := by
              ring
            rw [heq]
            push_cast at hle
            linarith
    · rw [if_neg h]
      simp only [List.not_mem_nil, false_iff]
      rintro ⟨k, _, _, hle⟩
      have hk0 : (0 : ℚ) ≤ (k : ℚ) * step :=
        mul_nonneg (by positivity) (le_of_lt hs)
      linarith

/-- The float `while` loop with positive `step` yields exactly the
rounded progression values `round2 (min + k*step)` with
`min + k*step ≤ max` (the fuel is always sufficient). -/
lemma mem_pyFloatRange (min_val max_val step : ℚ) (hs : 0 < step) (v : ℚ) :
    v ∈ pyFloatRange min_val max_val step ↔
      ∃ k : ℕ, v = round2 (min_val + k * step) ∧
        min_val + k * step ≤ max_val := by
  rw [pyFloatRange, mem_pyFloatRangeAux _ _ _ _ hs]
  constructor
  · rintro ⟨k, _, hv, hle⟩
    exact ⟨k, hv, hle⟩
  · rintro ⟨k, hv, hle⟩
    refine ⟨k, ?_, hv, hle⟩
    have h1 : (k : ℚ) * step ≤ max_val - min_val := by linarith
    have h2 : (k : ℚ) ≤ (max_val - min_val) / step :=
      (le_div_iff hs).mpr h1
    have h3 : (k : ℤ) ≤ ⌈(max_val - min_val) / step⌉ := by
      have := h2.trans (Int.le_ceil _)
      exact_mod_cast this
    omega

/-- Python `int()` of an integer-valued float is that integer. -/
lemma pythonInt_intCast (a : ℤ) : pythonInt (a : ℚ) = a := by
  unfold pythonInt
  split_ifs <;> simp




/-- Claim C7: `generate_parameter_grid` turns an int range spec into
`range(min, max+1, step)` (the progression from `min` to `max`
inclusive), a float range spec into the progression of values
`min + k*step ≤ max` rounded to 2 decimals, and a choice spec into
its options list verbatim. -/
theorem parameter_grid_generation (n : String) (a b s : ℤ) (hs : 1 ≤ s)
    (mn mx st : ℚ) (hst : 0 < st) (opts : List Value) :
    generate_parameter_grid [(n, intSpecOf a b s)] =
      [(n, (pyIntRange a (b + 1) s).map (fun v => Value.num (v : ℚ)))] ∧
    (∀ v : ℤ, v ∈ pyIntRange a (b + 1) s ↔
      ∃ k : ℕ, v = a + k * s ∧ v ≤ b) ∧
    generate_parameter_grid [(n, floatSpecOf mn mx st)] =
      [(n, (pyFloatRange mn mx st).map Value.num)] ∧
    (∀ v : ℚ, v ∈ pyFloatRange mn mx st ↔
      ∃ k : ℕ, v = round2 (mn + k * st) ∧ mn + k * st ≤ mx) ∧
    generate_parameter_grid [(n, choiceSpecOf opts)] = [(n, opts)] := by
  refine ⟨?_, ?_, ?_, ?_, ?_⟩
  · simp [generate_parameter_grid, intSpecOf, pythonInt_intCast]
  · intro v
    rw [mem_pyIntRange a (b + 1) s hs v]
    constructor
    · rintro ⟨k, hv, hlt⟩
      exact ⟨k, hv, by omega⟩
    · rintro ⟨k, hv, hle⟩
      exact ⟨k, hv, by omega⟩
  · simp [generate_parameter_grid, floatSpecOf]
  · exact fun v => mem_pyFloatRange mn mx st hst v
  · simp [generate_parameter_grid, choiceSpecOf]

/-- Witness for `parameter_grid_generation`: concrete range checks —
20 is in `range(10, 51, 5)` and 1.75 in the float range 1.5..2.5 by
0.25. -/
theorem parameter_grid_generation_witness :
    (20 : ℤ) ∈ pyIntRange 10 (50 + 1) 5 ∧
    (7/4 : ℚ) ∈ pyFloatRange (3/2) (5/2) (1/4) := by
  have h := parameter_grid_generation "p" 10 50 5 (by norm_num) (3/2) (5/2)
    (1/4) (by norm_num) []
  constructor
  · exact (h.2.1 20).mpr ⟨2, by norm_num, by norm_num⟩
  · refine (h.2.2.2.1 (7/4)).mpr ⟨1, ?_, by norm_num⟩
    norm_num [round2, pythonRound]


/-- `rankLE` is transitive. -/
lemma rankLE_trans (a b c : OptimizationResult) :
    rankLE a b → rankLE b c → rankLE a c := by
  simp only [rankLE, decide_eq_true_eq]
  intro h1 h2
  exact h2.trans h1

/-- `rankLE` is total. -/
lemma rankLE_total (a b : OptimizationResult) : rankLE a b || rankLE b a := by
  simp only [rankLE, Bool.or_eq_true, decide_eq_true_eq]
  exact le_total _ _

/-- Claim C6: `_rank_results` assigns every surviving result the
composite score `clamp(roi/100, -1, 2)*0.3 + min(pf/3, 1)*0.3 +
max(1 - |maxdd|/100, 0)*0.4`, and the returned list is the input
scored and sorted non-increasingly by that score, with tied results
keeping their original order (stability, stated as: for every score
value, the subsequence at that score is unchanged). -/
theorem rank_results_spec (results : List OptimizationResult) :
    (∀ r ∈ rank_results results, r.rank_score = rank_score_of r.metrics) ∧
    (rank_results results).Perm
      (results.map (fun r => { r with rank_score := rank_score_of r.metrics })) ∧
    (rank_results results).Pairwise
      (fun a b => b.rank_score ≤ a.rank_score) ∧
    (∀ c : ℚ, (rank_results results).filter
        (fun r => decide (r.rank_score = c)) =
      (results.map
        (fun r => { r with rank_score := rank_score_of r.metrics })).filter
        (fun r => decide (r.rank_score = c))) := by
  have hdef : rank_results results =
      (results.map
        (fun r => { r with rank_score := rank_score_of r.metrics })).mergeSort
        rankLE := rfl
  have hperm := List.mergeSort_perm
    (results.map (fun r => { r with rank_score := rank_score_of r.metrics }))
    rankLE
  refine ⟨?_, ?_, ?_, ?_⟩
  · intro r hr
    rw [hdef] at hr
    have hr2 := hperm.mem_iff.mp hr
    rcases List.mem_map.mp hr2 with ⟨r0, -, rfl⟩
    rfl
  · rw [hdef]
    exact hperm
  · rw [hdef]
    have hsorted := List.sorted_mergeSort rankLE_trans rankLE_total
      (results.map (fun r => { r with rank_score := rank_score_of r.metrics }))
    exact hsorted.imp (fun h => by simpa [rankLE] using h)
  · intro c
    set scored := results.map
      (fun r => { r with rank_score := rank_score_of r.metrics }) with hscored
    set p := fun r : OptimizationResult => decide (r.rank_score = c) with hp
    have hpair : (scored.filter p).Pairwise (fun a b => rankLE a b) := by
      refine List.pairwise_of_forall_mem_list ?_
      intro a ha b hb
      have ha2 : a.rank_score = c := by
        simpa [hp] using List.of_mem_filter ha
      have hb2 : b.rank_score = c := by
        simpa [hp] using List.of_mem_filter hb
      simp [rankLE, ha2, hb2]
    have hsub : List.Sublist (scored.filter p) scored := List.filter_sublist _
    have hsub2 : List.Sublist (scored.filter p) (scored.mergeSort rankLE) :=
      List.sublist_mergeSort rankLE_trans rankLE_total hpair hsub
    have hself : (scored.filter p).filter p = scored.filter p := by
      rw [List.filter_eq_self]
      intro a ha
      exact List.of_mem_filter ha
    have h4 : List.Sublist (scored.filter p) ((scored.mergeSort rankLE).filter p) := by
      have h5 := hsub2.filter p
      rwa [hself] at h5
    have hpermf : ((scored.mergeSort rankLE).filter p).Perm (scored.filter p) :=
      hperm.filter p
    have h6 := h4.eq_of_length hpermf.length_eq.symm
    rw [hdef]
    exact h6.symm

/-- Witness for `rank_results_spec`: on a singleton list with
zero-filled metrics the scored element (score `0.4`) satisfies the
formula conjunct. -/
theorem rank_results_spec_witness :
    (⟨[], BacktestEngine.empty_metrics, 2/5⟩ : OptimizationResult).rank_score =
      rank_score_of
        (⟨[], BacktestEngine.empty_metrics, 2/5⟩ : OptimizationResult).metrics := by
  refine (rank_results_spec
    [⟨[], BacktestEngine.empty_metrics, 0⟩]).1 _ ?_
  norm_num [rank_results, rank_score_of, BacktestEngine.empty_metrics,
    List.mergeSort]
